import Mathlib

/-!
Verification of the document-processing backend: a shallow embedding of the
extraction strategy chain, the quality assessor, the OCR step, the AI
structuring adapter and the job lifecycle manager, with theorems settling the
frozen claims about them.

External collaborators (pdf-parse, pdf2pic, tesseract.js, the Gemini service,
Supabase, the filesystem and JSON.parse) are modelled as oracle values or
oracle functions packaged in environment structures; all repository control
flow, string processing and arithmetic is translated directly from the source.
JavaScript floating-point threshold comparisons (ratio > 0.6, average > 2.5)
are modelled as exact rational comparisons by cross-multiplication.
-/

/-- A JavaScript `Error` value: only its `message` is ever inspected. -/
structure JsError where
  message : String
deriving DecidableEq, Repr

/-- A calendar date as read through the JavaScript `Date` getters
(`getFullYear`, `getMonth`, `getDate`).  The 0-based/1-based offset of
`getMonth` cancels in all differences the code takes, so months are kept
1-based here. -/
structure SimpleDate where
  year : Int
  month : Int
  day : Int
deriving DecidableEq, Repr

/-- A caller-supplied date of birth: the raw `YYYY-MM-DD` string the caller
sent, paired with the calendar value `new Date(dobString)` parses it to. -/
structure Dob where
  str : String
  date : SimpleDate
deriving DecidableEq, Repr

/-- JavaScript `\s` character class (also the set `String.prototype.trim`
removes): ASCII whitespace plus the Unicode space separators. -/
def jsIsSpace (c : Char) : Bool :=
  let n := c.toNat
  n == 9 || n == 10 || n == 11 || n == 12 || n == 13 || n == 32 ||
  n == 0xA0 || n == 0x1680 || (0x2000 ≤ n && n ≤ 0x200A) ||
  n == 0x2028 || n == 0x2029 || n == 0x202F || n == 0x205F ||
  n == 0x3000 || n == 0xFEFF

/-- JavaScript `\w` character class: `[A-Za-z0-9_]`. -/
def jsIsWordChar (c : Char) : Bool :=
  ('A' ≤ c && c ≤ 'Z') || ('a' ≤ c && c ≤ 'z') || ('0' ≤ c && c ≤ '9') || c == '_'

/-- The characters KEPT by the source's readable-character filter
`replace(/[^\w\s.,!?;:()\-@#$%&*+\/=<>[\]\x7b\x7d'"]/g, '')` used both in
`isTextQualityGood` and `cleanExtractedText`: word characters, whitespace and
the listed punctuation (including braces, written via their code points). -/
def jsIsReadable (c : Char) : Bool :=
  jsIsWordChar c || jsIsSpace c ||
  c == '.' || c == ',' || c == '!' || c == '?' || c == ';' || c == ':' ||
  c == '(' || c == ')' || c == '-' || c == '@' || c == '#' || c == '$' ||
  c == '%' || c == '&' || c == '*' || c == '+' || c == '/' || c == '=' ||
  c == '<' || c == '>' || c == '[' || c == ']' ||
  c == Char.ofNat 0x7b || c == Char.ofNat 0x7d ||
  c == Char.ofNat 39 || c == Char.ofNat 34

/-- The source's binary-content test `/[\x00-\x08\x0B\x0C\x0E-\x1F\x7F-\x9F]/`:
control bytes other than tab, line feed and carriage return, plus DEL and the
C1 range. -/
def hasBinaryChar (c : Char) : Bool :=
  let n := c.toNat
  n ≤ 8 || n == 0x0B || n == 0x0C || (0x0E ≤ n && n ≤ 0x1F) ||
  (0x7F ≤ n && n ≤ 0x9F)

/-- The source's encoded-content test `/[^\x20-\x7E\n\r\t]/`: any character
outside printable ASCII other than line feed, carriage return and tab. -/
def hasEncodedChar (c : Char) : Bool :=
  let n := c.toNat
  !((0x20 ≤ n && n ≤ 0x7E) || n == 10 || n == 13 || n == 9)

/-- `String.prototype.trim` on a character list: drop `\s` characters from
both ends. -/
def jsTrimList (cs : List Char) : List Char :=
  ((cs.dropWhile jsIsSpace).reverse.dropWhile jsIsSpace).reverse

/-- `String.prototype.trim`. -/
def jsTrim (s : String) : String :=
  String.mk (jsTrimList s.toList)

/-- Maximal runs of non-whitespace characters, i.e. the non-empty tokens of a
JavaScript `split(/\s+/)` (the possible leading empty token that split
produces has length 0 and is removed by every `length > 2` filter applied to
the result, so it is never materialised here). -/
def wordsAux : List Char → List Char → List (List Char)
  | [], acc => if acc.isEmpty then [] else [acc.reverse]
  | c :: cs, acc =>
    if jsIsSpace c then
      if acc.isEmpty then wordsAux cs [] else acc.reverse :: wordsAux cs []
    else wordsAux cs (c :: acc)

/-- The tokens `isTextQualityGood` averages over: whitespace-split words
longer than 2 characters (`text.split(/\s+/).filter(word => word.length > 2)`). -/
def wordsFiltered (cs : List Char) : List (List Char) :=
  (wordsAux cs []).filter (fun w => w.length > 2)

/-- Number of characters the readable-character filter keeps. -/
def readableCount (cs : List Char) : Nat :=
  (cs.filter jsIsReadable).length

/-- Sum of the lengths of a token list. -/
def wordLenSum (ws : List (List Char)) : Nat :=
  (ws.map List.length).sum

/-- `isTextQualityGood(text)` from `services/pdfExtractor.js` (lines 110-129):
false for an empty or all-whitespace string, otherwise the conjunction
`readableRatio > 0.6 && avgWordLength > 2.5 && text.length > 50 &&
!hasBinaryContent && !hasEncodedContent`, with the two float thresholds
expressed exactly by cross-multiplication and the `words.length > 0 ? _ : 0`
average made explicit (an empty token list gives average 0, which fails
`> 2.5`).  Note the `text.length > 50` test is on the UNtrimmed string; the
trim appears only in the initial emptiness guard. -/
def isTextQualityGood (text : String) : Bool :=
  let cs := text.toList
  if cs.isEmpty || (jsTrimList cs).isEmpty then false
  else
    let ws := wordsFiltered cs
    decide (3 * cs.length < 5 * readableCount cs) &&
    (if ws.length == 0 then false else decide (5 * ws.length < 2 * wordLenSum ws)) &&
    decide (50 < cs.length) &&
    !(cs.any hasBinaryChar) &&
    !(cs.any hasEncodedChar)

/-- Collapse every `\s+` run to a single space (`replace(/\s+/g, ' ')`).
The boolean records whether the previous character was whitespace. -/
def collapseWsAux : List Char → Bool → List Char
  | [], _ => []
  | c :: cs, prev =>
    if jsIsSpace c then
      if prev then collapseWsAux cs true else ' ' :: collapseWsAux cs true
    else c :: collapseWsAux cs false

/-- One scan of `replace(/\b([A-Z])\s+([A-Z])\b/g, '$1$2')`: at each position
whose preceding character is a word boundary, an isolated capital, a
whitespace run and a second capital followed by a boundary are contracted to
the two capitals; scanning resumes after the match, as the global regex does.
The fuel argument (instantiated to the list length, which every step strictly
decreases by at least the amount of fuel spent) makes the recursion
structural so that it reduces inside the kernel. -/
def fixCapsAux : Nat → Option Char → List Char → List Char
  | 0, _, cs => cs
  | _ + 1, _, [] => []
  | fuel + 1, prev, c1 :: rest =>
    if (match prev with
        | none => true
        | some p => !jsIsWordChar p) &&
       ('A' ≤ c1 && c1 ≤ 'Z') &&
       !(rest.takeWhile jsIsSpace).isEmpty then
      match rest.dropWhile jsIsSpace with
      | c2 :: rest2 =>
        if ('A' ≤ c2 && c2 ≤ 'Z') &&
           (match rest2 with
            | [] => true
            | c3 :: _ => !jsIsWordChar c3) then
          c1 :: c2 :: fixCapsAux fuel (some c2) rest2
        else c1 :: fixCapsAux fuel (some c1) rest
      | [] => c1 :: fixCapsAux fuel (some c1) rest
    else c1 :: fixCapsAux fuel (some c1) rest

/-- `cleanExtractedText(text)` from `services/pdfExtractor.js` (lines 410-421):
empty in, empty out; otherwise collapse whitespace runs and trim, strip
non-readable characters, then contract spaced capitals. -/
def cleanExtractedText (text : String) : String :=
  if text = "" then ""
  else
    let step1 := jsTrimList (collapseWsAux text.toList false)
    let step2 := step1.filter jsIsReadable
    String.mk (fixCapsAux step2.length none step2)


/-- Substring test, JavaScript `haystack.includes(needle)`. -/
def strContains (hay nee : String) : Bool :=
  (List.range (hay.toList.length + 1)).any
    (fun i => nee.toList.isPrefixOf (hay.toList.drop i))

/-- JavaScript `s.startsWith(pre)`. -/
def jsStartsWith (s pre : String) : Bool :=
  pre.toList.isPrefixOf s.toList

/-- Oracle inputs of `extractTextWithOCR` (`services/pdfExtractor.js` lines
134-271): availability of the OCR modules, the free disk space reported by
`check-disk-space`, the outcome of the two `pdf2pic` conversion attempts
(each a list of page-image file identifiers, standing for the files
`pdf2pic` writes into the output directory), and the per-page outcome of
`Tesseract.recognize`. -/
structure OcrEnv where
  modulesAvailable : Bool
  freeSpace : Nat
  convert : Except JsError (List Nat)
  convertAlt : Except JsError (List Nat)
  ocrPage : Nat → Except JsError String

/-- The temporary resources `extractTextWithOCR` creates: the temp PDF file,
the page-image output directory, and the page-image files still on disk. -/
structure FsState where
  tempPdf : Bool
  outputDir : Bool
  pageFiles : List Nat
deriving DecidableEq, Repr

/-- What one call of `extractTextWithOCR` does: the value it resolves or the
error it rejects with, the temporary resources left behind on exit, and the
number of pages handed to the OCR engine (`Tesseract.recognize` calls). -/
structure OcrOutcome where
  result : Except JsError String
  fs : FsState
  ocrCalls : Nat

/-- No temporary resources on disk. -/
def cleanFs : FsState := ⟨false, false, []⟩

/-- The per-page OCR loop (`services/pdfExtractor.js` lines 220-250): page
`i` contributes its recognized text, or the inline marker
`[OCR failed for page i+1]` when recognition rejects, each followed by a
blank-line separator; every page image is unlinked right after. -/
def ocrPagesText (env : OcrEnv) : Nat → List Nat → String
  | _, [] => ""
  | i, p :: ps =>
    (match env.ocrPage p with
     | .ok t => t ++ "\n\n"
     | .error _ => "[OCR failed for page " ++ toString (i + 1) ++ "]\n\n") ++
    ocrPagesText env (i + 1) ps

/-- Continuation of `extractTextWithOCR` after a conversion attempt
succeeded with page list `ps`: empty page list throws (leaving the temp PDF
and output directory behind), otherwise every page is OCR-processed, the page
images are unlinked in the loop, the temp PDF and output directory are
removed after it, and an all-whitespace concatenation throws. -/
def afterConvert (env : OcrEnv) (ps : List Nat) : OcrOutcome :=
  if ps.isEmpty then
    ⟨.error ⟨"No pages could be extracted from PDF"⟩, ⟨true, true, []⟩, 0⟩
  else
    let fullText := ocrPagesText env 0 ps
    if jsTrim fullText = "" then
      ⟨.error ⟨"OCR failed to extract any text from the document"⟩, cleanFs, ps.length⟩
    else
      ⟨.ok fullText, cleanFs, ps.length⟩

/-- `extractTextWithOCR(pdfBuffer)` from `services/pdfExtractor.js` (lines
134-271).  Missing OCR modules or less than 100 MB of free disk space reject
before any temporary resource is created.  Then the temp PDF is written and
the output directory made; the primary `pdf2pic` conversion is tried and, on
failure, the alternative option set; if both fail the function rejects with
the combined message — with the temp PDF and the output directory still on
disk, since the in-loop and post-loop cleanup (lines 244-258) is never
reached on that path, and likewise on the empty-page-list throw.  Pages are
converted with `bulk(-1)` — all of them, there is no page cap. -/
def extractTextWithOCR (env : OcrEnv) : OcrOutcome :=
  if !env.modulesAvailable then
    ⟨.error ⟨"OCR modules not available. Please install tesseract.js and pdf2pic."⟩, cleanFs, 0⟩
  else if env.freeSpace < 100 * 1024 * 1024 then
    ⟨.error ⟨"Insufficient disk space for PDF OCR processing"⟩, cleanFs, 0⟩
  else
    match env.convert with
    | .ok ps => afterConvert env ps
    | .error e1 =>
      match env.convertAlt with
      | .ok ps => afterConvert env ps
      | .error e2 =>
        ⟨.error ⟨"Both conversion methods failed: " ++ e1.message ++ ", " ++ e2.message⟩,
         ⟨true, true, []⟩, 0⟩

/-- Oracle inputs of the extraction strategy chain `extractTextFromPDF`
(`services/pdfExtractor.js` lines 23-87) for one PDF buffer:
* `pdfParseStd` — the `pdf-parse` outcome inside `tryStandardExtraction`
  (whose own try/catch makes that helper total);
* `ocrEnv` — the oracle inputs of `extractTextWithOCR` above;
* `altOcrText` — the string `extractTextWithAlternativeOCR` returns (that
  helper catches internally and returns a string, possibly empty, on every
  path: lines 276-348);
* `fallbackText` — the string `extractTextFallback` returns (also total by
  its own try/catch: lines 353-390). -/
structure PdfOracle where
  pdfParseStd : Except JsError String
  ocrEnv : OcrEnv
  altOcrText : String
  fallbackText : String

/-- `tryStandardExtraction(pdfBuffer)` (lines 92-105): the text `pdf-parse`
returned (`data.text || ''`), or `''` when it threw. -/
def tryStandardExtraction (o : PdfOracle) : String :=
  match o.pdfParseStd with
  | .ok t => t
  | .error _ => ""

/-- The usability test the chain applies to the OCR, alternative-OCR and
fallback results: `text && text.trim().length > 0 && isTextQualityGood(text)`. -/
def usableText (t : String) : Bool :=
  !(t == "") && !(jsTrim t == "") && isTextQualityGood t

/-- The strategies of the extraction chain, in source order. -/
inductive Strat where
  | standard
  | ocr
  | altOcr
  | fallback
deriving DecidableEq, Repr

/-- One run of the chain body: the string it produces, the strategies it
attempted in order, and how many pages were handed to the OCR engine. -/
structure ChainRun where
  text : String
  trace : List Strat
  engineCalls : Nat
deriving Repr

/-- The placeholder returned when every extraction strategy fails
(`services/pdfExtractor.js` line 74). -/
def noTextMsg : String :=
  "PDF text extraction was not successful. The document may be scanned, encrypted, or corrupted."

/-- The body of `extractTextFromPDF` (lines 23-74), instrumented with the
trace of attempted strategies: standard extraction is kept when its raw text
passes `isTextQualityGood`; otherwise `extractTextWithOCR` runs, its usable
resolution is kept, the alternative OCR is consulted only when it REJECTED
(a resolved-but-unusable OCR result skips straight past the catch block), and
`extractTextFallback`'s result is kept if usable; otherwise the literal
placeholder `noTextMsg` is returned.  Every kept text goes through
`cleanExtractedText`. -/
def chainRun (o : PdfOracle) : ChainRun :=
  let stdText := tryStandardExtraction o
  if isTextQualityGood stdText then
    ⟨cleanExtractedText stdText, [Strat.standard], 0⟩
  else
    let ocrRun := extractTextWithOCR o.ocrEnv
    match ocrRun.result with
    | .ok t =>
      if usableText t then
        ⟨cleanExtractedText t, [Strat.standard, Strat.ocr], ocrRun.ocrCalls⟩
      else if usableText o.fallbackText then
        ⟨cleanExtractedText o.fallbackText, [Strat.standard, Strat.ocr, Strat.fallback],
         ocrRun.ocrCalls⟩
      else
        ⟨noTextMsg, [Strat.standard, Strat.ocr, Strat.fallback], ocrRun.ocrCalls⟩
    | .error _ =>
      if usableText o.altOcrText then
        ⟨cleanExtractedText o.altOcrText, [Strat.standard, Strat.ocr, Strat.altOcr],
         ocrRun.ocrCalls⟩
      else if usableText o.fallbackText then
        ⟨cleanExtractedText o.fallbackText,
         [Strat.standard, Strat.ocr, Strat.altOcr, Strat.fallback], ocrRun.ocrCalls⟩
      else
        ⟨noTextMsg, [Strat.standard, Strat.ocr, Strat.altOcr, Strat.fallback],
         ocrRun.ocrCalls⟩

/-- The outer catch of `extractTextFromPDF` (lines 76-86): an escaped error
whose message contains `'Password'` is re-raised as the password-protection
error; any other escaped error is swallowed and the fixed apology string is
returned. -/
def pdfOuterHandler (e : JsError) : Except JsError String :=
  if strContains e.message "Password" then
    .error ⟨"PDF is password protected. Please provide an unencrypted PDF."⟩
  else
    .ok "PDF processing encountered an error. Please try with a different document."

/-- `extractTextFromPDF(pdfBuffer)`: the chain body wrapped in the outer
try/catch.  Under this embedding every helper catches its own failures (the
body has no throwing path), so the body's value is returned directly; the
handler `pdfOuterHandler` models what the catch would do to an error that did
escape. -/
def extractTextFromPDF (o : PdfOracle) : Except JsError String :=
  .ok (chainRun o).text

/-- `calculateAge(dobString)` from `services/utils.js` (lines 7-19), with the
clock reading `new Date()` made an explicit `today` argument and the parsed
`new Date(dobString)` an explicit calendar date: start from the year
difference and subtract one when today's (month, day) is before the
birthday's. -/
def calculateAge (today : SimpleDate) (birthDate : SimpleDate) : Int :=
  let age := today.year - birthDate.year
  let monthDiff := today.month - birthDate.month
  if monthDiff < 0 || (monthDiff == 0 && today.day < birthDate.day) then age - 1
  else age

/-- `calculateAgeFromDob(dobString)` from `services/aiProcessor.js`: a
verbatim duplicate of `calculateAge` in `services/utils.js`, embedded the
same way. -/
def calculateAgeFromDob (today : SimpleDate) (birthDate : SimpleDate) : Int :=
  let age := today.year - birthDate.year
  let monthDiff := today.month - birthDate.month
  if monthDiff < 0 || (monthDiff == 0 && today.day < birthDate.day) then age - 1
  else age

/-- `personalInfo` as parsed from / written into the structured record. -/
structure PersonalInfo where
  fullName : Option String := none
  dateOfBirth : Option String := none
  age : Option Int := none
deriving DecidableEq, Repr

/-- `contactInfo` of the structured record. -/
structure ContactInfo where
  emails : List String := []
  phoneNumbers : List String := []
deriving DecidableEq, Repr

/-- The structured record `processWithAI` returns: the fields of the JSON
schema the prompt requests, plus the fields of the mock response (`note`) and
of the parse-failure record (`rawResponse`, `error`, `extractedData`).
Fields a given path does not set are `none`/empty. -/
structure AIRecord where
  personalInfo : Option PersonalInfo := none
  contactInfo : Option ContactInfo := none
  addresses : List String := []
  identificationNumbers : List String := []
  keyDates : List String := []
  summary : Option String := none
  note : Option String := none
  rawResponse : Option String := none
  error : Option String := none
  extractedData : Option String := none
deriving DecidableEq, Repr

/-- Suffix of `cs` that starts right after the first occurrence of `pat`,
`none` when `pat` does not occur. -/
def firstOccSuffix (pat : List Char) : List Char → Option (List Char)
  | [] => if pat.isEmpty then some [] else none
  | c :: rest =>
    if pat.isPrefixOf (c :: rest) then some ((c :: rest).drop pat.length)
    else firstOccSuffix pat rest

/-- Prefix of `cs` that ends right before the first occurrence of `pat`,
`none` when `pat` does not occur. -/
def beforeFirst (pat : List Char) : List Char → Option (List Char)
  | [] => if pat.isEmpty then some [] else none
  | c :: rest =>
    if pat.isPrefixOf (c :: rest) then some []
    else (beforeFirst pat rest).map (c :: ·)

/-- Capture group of `aiText.match(/```json\n([\s\S]*?)\n```/)`: the text
between the first fence opener and the first fence closer after it (the lazy
quantifier takes the earliest closer anywhere after the earliest opener). -/
def fencedJsonBlock (cs : List Char) : Option (List Char) :=
  (firstOccSuffix "```json\n".toList cs).bind
    (fun after => beforeFirst "\n```".toList after)

/-- Capture group of `aiText.match(/({[\s\S]*})/)`: from the first opening
brace to the last closing brace, provided the latter comes after the former
(the greedy quantifier backtracks to the last closing brace). -/
def braceDelimited (cs : List Char) : Option (List Char) :=
  let fromBrace := cs.dropWhile (fun c => !(c == Char.ofNat 0x7b))
  let seg := (fromBrace.reverse.dropWhile (fun c => !(c == Char.ofNat 0x7d))).reverse
  if 2 ≤ seg.length then some seg else none

/-- The string handed to `JSON.parse` (`services/aiProcessor.js` lines 68-69):
`jsonMatch ? jsonMatch[1] || jsonMatch[0] : aiText` where `jsonMatch` is the
fenced-block match or else the brace match.  An empty fenced capture group is
falsy, so `match[0]` — the capture including its fences — is used in that
corner; the brace capture group equals the whole brace match and is never
empty. -/
def extractJsonCandidate (aiText : String) : String :=
  let cs := aiText.toList
  match fencedJsonBlock cs with
  | some g =>
    if g.isEmpty then String.mk ("```json\n".toList ++ "\n```".toList)
    else String.mk g
  | none =>
    match braceDelimited cs with
    | some b => String.mk b
    | none => aiText

/-- Oracle inputs of `processWithAI(text, providedDob)` (`services/
aiProcessor.js`): whether `GEMINI_API_KEY` is set, the AI service call's
outcome (the response text, or the rejection the outer catch handles),
`JSON.parse` as a partial function into the record shape, the clock, and the
pattern-match primitives the mock generator applies to the document text
(first email match, first phone match, first id-shaped match, all date-shaped
matches, all address-shaped matches). -/
structure AIEnv where
  hasApiKey : Bool
  serviceResponse : Except JsError String
  jsParse : String → Option AIRecord
  today : SimpleDate
  emailMatch : String → Option String
  phoneMatch : String → Option String
  idMatch : String → Option String
  datesIn : String → List String
  addressesIn : String → List String

/-- `extractDatesFromText(text)`: the date-shaped matches, first five only
(`dates.slice(0, 5)`). -/
def extractDatesFromText (env : AIEnv) (text : String) : List String :=
  (env.datesIn text).take 5

/-- `extractAddressesFromText(text)`: the address-shaped matches, first three
only (`addresses.slice(0, 3)`). -/
def extractAddressesFromText (env : AIEnv) (text : String) : List String :=
  (env.addressesIn text).take 3

/-- `generateMockAIResponse(text, providedDob)` (lines 113-138): the
deterministic local record — `personalInfo.dateOfBirth` is the provided date
of birth and `age` is computed from it, contact/id/date/address fields come
from the regex primitives, and `note` marks the record as mock data. -/
def generateMockAIResponse (env : AIEnv) (text : String) (providedDob : Dob) : AIRecord :=
  { personalInfo := some
      { fullName := some "Extracted from document"
        dateOfBirth := some providedDob.str
        age := some (calculateAgeFromDob env.today providedDob.date) }
    contactInfo := some
      { emails := (env.emailMatch text).toList
        phoneNumbers := (env.phoneMatch text).toList }
    addresses := extractAddressesFromText env text
    identificationNumbers := (env.idMatch text).toList
    keyDates := extractDatesFromText env text
    summary := some "This is a mock AI extraction demonstrating structured data extraction capabilities. Provide a real Gemini API key for actual AI processing."
    note := some "Mock data - real AI processing requires GEMINI_API_KEY" }

/-- `processWithAI(text, providedDob)` (`services/aiProcessor.js` lines
14-92).  No API key: the mock record.  With a key, the service is called; a
rejected call falls into the outer catch, which also returns the mock record.
A resolved response has its JSON candidate extracted and parsed: on success
`personalInfo` is normalized (`parsedData.personalInfo || {}`) and its
`dateOfBirth`/`age` overwritten from the provided date of birth; on parse
failure a degraded record with `rawResponse`, `error` and `extractedData` is
returned without raising. -/
def processWithAI (env : AIEnv) (text : String) (providedDob : Dob) : AIRecord :=
  if !env.hasApiKey then generateMockAIResponse env text providedDob
  else
    match env.serviceResponse with
    | .error _ => generateMockAIResponse env text providedDob
    | .ok aiText =>
      match env.jsParse (extractJsonCandidate aiText) with
      | some parsedData =>
        let pi := parsedData.personalInfo.getD {}
        { parsedData with
          personalInfo := some
            { pi with
              dateOfBirth := some providedDob.str
              age := some (calculateAgeFromDob env.today providedDob.date) } }
      | none =>
        { rawResponse := some aiText
          error := some "AI response could not be parsed as JSON"
          extractedData := some aiText }


/-- The caller-supplied subject data of a job. -/
structure UserData where
  firstName : String
  lastName : String
  dob : Dob
deriving DecidableEq, Repr

/-- The persisted `document_processing_jobs` row fields the async task
touches.  Per the schema, `raw_text`, `ai_extracted_data`, `full_name`,
`age` and `error_message` are nullable with no default. -/
structure JobRow where
  status : String
  rawText : Option String
  aiData : Option AIRecord
  fullName : Option String
  age : Option Int
  errorMessage : Option String
deriving DecidableEq, Repr

/-- The row as `storeDocumentMetadata` inserts it at submission: status
`processing`, result columns unset. -/
def initialJobRow : JobRow :=
  ⟨"processing", none, none, none, none, none⟩

/-- The results object `processDocumentAsync` builds for
`updateProcessingResults`. -/
structure Results where
  rawText : String
  aiExtractedData : Option AIRecord
  fullName : String
  age : Int
deriving DecidableEq, Repr

/-- `updateProcessingResults(jobId, results)` from `services/
supabaseService.js` (lines 238-254, part_006 numbering): one update setting
`status = 'completed'` together with `raw_text`, `ai_extracted_data`,
`full_name` and `age` on the job's row. -/
def updateProcessingResults (row : JobRow) (results : Results) : JobRow :=
  { row with
    status := "completed"
    rawText := some results.rawText
    aiData := results.aiExtractedData
    fullName := some results.fullName
    age := some results.age }

/-- Oracle inputs of one `processDocumentAsync` run: the upload's MIME type,
the caller data and the chosen processing method, the outcomes of
`extractTextFromPDF` / `extractTextFromImage` (each may reject, e.g. the
password re-raise) and of `processWithAI`, the clock, and whether each of the
two Supabase writes (the completed-results update and the failed-status
update) succeeds. -/
structure ProcEnv where
  mimetype : String
  userData : UserData
  processingMethod : String
  pdfExtract : Except JsError String
  imageExtract : Except JsError String
  aiResult : Except JsError AIRecord
  today : SimpleDate
  dbUpdateOk : Bool
  dbFailUpdateOk : Bool

/-- The catch block of `processDocumentAsync` (lines 131-146): set the row to
`failed` with the error's message — touching no other column, so `raw_text`
keeps whatever value it had — or, when even that update fails, log and leave
the row as it was. -/
def procFailPath (env : ProcEnv) (row : JobRow) (e : JsError) : JobRow :=
  if env.dbFailUpdateOk then
    { row with status := "failed", errorMessage := some e.message }
  else row

/-- The text-extraction phase of `processDocumentAsync` (part_006 lines
63-94): PDF and image extraction failures (and blank extractions) are caught
locally and replaced with explanatory text; only an unsupported MIME type
throws out of the phase. -/
def extractRawTextStep (env : ProcEnv) : Except JsError String :=
  if env.mimetype == "application/pdf" then
    .ok (match env.pdfExtract with
         | .ok t =>
           if t == "" || jsTrim t == "" then
             "PDF text extraction completed but no readable text was found."
           else t
         | .error e => "PDF processing encountered an issue: " ++ e.message)
  else if jsStartsWith env.mimetype "image/" then
    .ok (match env.imageExtract with
         | .ok t =>
           if t == "" || jsTrim t == "" then
             "Image text extraction completed but no readable text was found."
           else t
         | .error e => "Image processing encountered an issue: " ++ e.message)
  else .error ⟨"Unsupported file type: " ++ env.mimetype⟩

/-- The results object `processDocumentAsync` builds (part_006 lines
103-125): AI output only in `ai` mode with its failure degraded to `null`,
`rawText` forced non-empty (`rawText || 'No text could be extracted from the
document.'`), and the derived full name and age from the caller data. -/
def buildResults (env : ProcEnv) (rawText : String) : Results :=
  { rawText := if rawText == "" then "No text could be extracted from the document." else rawText
    aiExtractedData :=
      if env.processingMethod == "ai" then
        match env.aiResult with
        | .ok d => some d
        | .error _ => none
      else none
    fullName := env.userData.firstName ++ " " ++ env.userData.lastName
    age := calculateAge env.today env.userData.dob.date }

/-- `processDocumentAsync(jobId, file, userData, processingMethod, fileUrl)`
(`services/documentProcessor.js`, part_006 lines 59-148), as the transformer
of the job's persisted row: the extraction phase above, then the results
object persisted by `updateProcessingResults`; an extraction-phase throw or
a rejected results update lands in the outer catch (`procFailPath`). -/
def processDocumentAsync (env : ProcEnv) (row : JobRow) : JobRow :=
  match extractRawTextStep env with
  | .error e => procFailPath env row e
  | .ok rawText =>
    if env.dbUpdateOk then updateProcessingResults row (buildResults env rawText)
    else procFailPath env row ⟨"Failed to update processing results: database error"⟩

/- Concrete inputs used by witnesses and counterexamples. -/

/-- A caller-supplied date of birth used in concrete runs. -/
def dob1 : Dob := ⟨"2000-06-15", ⟨2000, 6, 15⟩⟩

/-- Concrete caller data used in concrete runs. -/
def user1 : UserData := ⟨"Ada", "Lovelace", dob1⟩

/-- An embedded text layer of `Hello World` repeated past 50 characters. -/
def hwText : String := "Hello World Hello World Hello World Hello World Hello World"

/-- The 26-character alternating-case ASCII string with one space from the
spec's quality-assessor test. -/
def alt26 : String := "aBcDeFgHiJkL mNoPqRsTuVwXy"

/-- A 200-character lorem-ipsum-like ASCII paragraph. -/
def lorem200 : String := "Lorem ipsum dolor sit amet, consectetur adipiscing elit, sed do eiusmod tempor incididunt ut labore et dolore magna aliqua. Ut enim ad minim veniam, quis nostrud exercitation ullamco laboris nisi uti."

/-- 34 readable characters padded with 20 trailing spaces: 54 characters
before trimming, 34 after. -/
def trimCexText : String := "abcdef abcdef abcdef abcdef abcdef                    "

/-- An OCR environment whose conversion yields the given page list. -/
def ocrEnvPages (ps : List Nat) : OcrEnv :=
  ⟨true, 200 * 1024 * 1024, .ok ps, .error ⟨"unused"⟩, fun _ => .ok "page text"⟩

/-- An OCR environment in which both `pdf2pic` conversion attempts fail. -/
def ocrEnvConvFail : OcrEnv :=
  ⟨true, 200 * 1024 * 1024, .error ⟨"primary conversion failed"⟩,
   .error ⟨"alternative conversion failed"⟩, fun _ => .ok ""⟩

/-- A PDF oracle on which every extraction strategy yields nothing usable. -/
def pdfOracleAllFail : PdfOracle :=
  ⟨.error ⟨"parse failed"⟩, ⟨false, 0, .error ⟨"u1"⟩, .error ⟨"u2"⟩, fun _ => .error ⟨"u3"⟩⟩,
   "", ""⟩

/-- A PDF oracle whose embedded text layer is the repeated `Hello World`. -/
def pdfOracleHW : PdfOracle :=
  ⟨.ok hwText, ⟨true, 200 * 1024 * 1024, .ok [1], .error ⟨"u"⟩, fun _ => .ok "irrelevant"⟩,
   "", ""⟩

/-- An AI environment whose service answers an empty JSON object and whose
`JSON.parse` accepts exactly that. -/
def aiEnvParsed : AIEnv :=
  ⟨true, .ok "\x7b\x7d", fun s => if s == "\x7b\x7d" then some {} else none,
   ⟨2024, 6, 15⟩, fun _ => none, fun _ => none, fun _ => none, fun _ => [], fun _ => []⟩

/-- An AI environment whose service answers prose that parses as nothing. -/
def aiEnvUnparseable : AIEnv :=
  ⟨true, .ok "garbage response", fun _ => none,
   ⟨2024, 6, 15⟩, fun _ => none, fun _ => none, fun _ => none, fun _ => [], fun _ => []⟩

/-- A processing environment for an upload of unsupported MIME type. -/
def envUnsupported : ProcEnv :=
  ⟨"text/plain", user1, "standard", .error ⟨"unused"⟩, .error ⟨"unused"⟩,
   .error ⟨"unused"⟩, ⟨2024, 6, 15⟩, true, true⟩

/-- A processing environment for a PDF whose extraction and persistence
succeed. -/
def envPdfOk : ProcEnv :=
  ⟨"application/pdf", user1, "standard", .ok "Some extracted document text.",
   .error ⟨"unused"⟩, .error ⟨"unused"⟩, ⟨2024, 6, 15⟩, true, true⟩

/- Helper lemmas shared between claims. -/

/-- On a successful conversion with a non-empty page list, the OCR step hands
every converted page to the OCR engine. -/
theorem extractTextWithOCR_ocrCalls (env : OcrEnv) (ps : List Nat)
    (hm : env.modulesAvailable = true)
    (hs : 100 * 1024 * 1024 ≤ env.freeSpace)
    (hc : env.convert = .ok ps)
    (hne : ps ≠ []) :
    (extractTextWithOCR env).ocrCalls = ps.length := by
  unfold extractTextWithOCR afterConvert
  rw [hm, hc]
  simp only [Bool.not_true, Bool.false_eq_true, if_false]
  rw [if_neg (Nat.not_lt.mpr hs)]
  rw [if_neg (by simp [hne])]
  split <;> rfl

/-- C9. The age calculation is inclusive of the birthday: for date of birth
2000-06-15 a fixed today of 2024-06-14 gives 23 and 2024-06-15 gives 24, and
in general the computed age is the year difference minus one exactly when
today's (month, day) precedes the birthday's (month, day) — so it increments
exactly on the anniversary day. -/
theorem calculateAge_inclusive_boundary :
    calculateAge ⟨2024, 6, 14⟩ ⟨2000, 6, 15⟩ = 23 ∧
    calculateAge ⟨2024, 6, 15⟩ ⟨2000, 6, 15⟩ = 24 ∧
    ∀ today dob : SimpleDate,
      calculateAge today dob =
        today.year - dob.year -
          (if today.month < dob.month ∨ (today.month = dob.month ∧ today.day < dob.day)
           then 1 else 0) := by
  refine ⟨by decide, by decide, ?_⟩
  intro today dob
  unfold calculateAge
  simp only [Bool.or_eq_true, Bool.and_eq_true, decide_eq_true_eq, beq_iff_eq]
  split <;> split <;> omega

/-- C10. The outer handler of `extractTextFromPDF` is not uniform over error
causes: an escaped exception whose message contains `'Password'` is re-raised
as the password-protection error, while every other escaped exception is
swallowed and the fixed apology string is returned instead. -/
theorem pdfOuterHandler_password_split (e : JsError) :
    (strContains e.message "Password" = true →
      pdfOuterHandler e = .error ⟨"PDF is password protected. Please provide an unencrypted PDF."⟩) ∧
    (strContains e.message "Password" = false →
      pdfOuterHandler e = .ok "PDF processing encountered an error. Please try with a different document.") := by
  unfold pdfOuterHandler
  constructor <;> intro h <;> simp [h]

/-- Witness for C10 at two concrete errors, one with `Password` in its
message and one without. -/
theorem pdfOuterHandler_password_split_witness :
    pdfOuterHandler ⟨"Invalid PDF Password given"⟩ =
      .error ⟨"PDF is password protected. Please provide an unencrypted PDF."⟩ ∧
    pdfOuterHandler ⟨"bad xref table"⟩ =
      .ok "PDF processing encountered an error. Please try with a different document." :=
  ⟨(pdfOuterHandler_password_split ⟨"Invalid PDF Password given"⟩).1 (by decide),
   (pdfOuterHandler_password_split ⟨"bad xref table"⟩).2 (by decide)⟩

/-- C8. Evaluating the OCR step at a PDF on which both `pdf2pic` conversion
attempts fail: the step rejects, and BOTH the temp PDF file and the page
output directory are left on disk — the cleanup block is placed after the
conversion, not in a finally, so this error path releases nothing. -/
theorem ocr_cleanup_leak_on_conversion_failure :
    (extractTextWithOCR ocrEnvConvFail).fs.tempPdf = true ∧
    (extractTextWithOCR ocrEnvConvFail).fs.outputDir = true ∧
    (extractTextWithOCR ocrEnvConvFail).result =
      .error ⟨"Both conversion methods failed: primary conversion failed, alternative conversion failed"⟩ := by
  refine ⟨rfl, rfl, rfl⟩

/-- C7 (amended). There is no page cap: whenever conversion succeeds with a
non-empty page list, the OCR step rasterizes and OCR-processes every one of
the document's pages (`convert.bulk(-1)`), so OCR work grows with the page
count. -/
theorem ocr_processes_all_pages (env : OcrEnv) (ps : List Nat)
    (hm : env.modulesAvailable = true)
    (hs : 100 * 1024 * 1024 ≤ env.freeSpace)
    (hc : env.convert = .ok ps)
    (hne : ps ≠ []) :
    (extractTextWithOCR env).ocrCalls = ps.length :=
  extractTextWithOCR_ocrCalls env ps hm hs hc hne

/-- Witness for C7 (amended): a three-page document gets all three pages
OCR-processed. -/
theorem ocr_processes_all_pages_witness :
    (extractTextWithOCR (ocrEnvPages [1, 2, 3])).ocrCalls = 3 :=
  ocr_processes_all_pages (ocrEnvPages [1, 2, 3]) [1, 2, 3] rfl (by decide) rfl (by decide)

/-- Counterexample for C7 as stated: no fixed bound N caps the number of
OCR-processed pages — for every candidate N a document with N + 1 pages
exceeds it. -/
theorem ocr_page_cap_cex :
    ¬ ∃ N : Nat, ∀ env : OcrEnv, (extractTextWithOCR env).ocrCalls ≤ N := by
  rintro ⟨N, h⟩
  have h2 := h (ocrEnvPages (List.range (N + 1)))
  rw [extractTextWithOCR_ocrCalls (ocrEnvPages (List.range (N + 1))) (List.range (N + 1))
        rfl (by norm_num [ocrEnvPages]) rfl (by simp)] at h2
  simp [List.length_range] at h2

/-- C1. The AI structuring adapter pins the date of birth: whenever the
service call resolves and its response parses, the returned record's
`personalInfo.dateOfBirth` is the caller-supplied date of birth and its age
is derived from it; and more generally EVERY record the adapter returns that
carries a `personalInfo` at all (real-AI parse, mock fallback, or
service-failure fallback — only the parse-failure record has none) carries
the caller-supplied date of birth and the derived age, never a value
extracted from the document text. -/
theorem processWithAI_dob_pinned (env : AIEnv) (text : String) (dob : Dob) :
    (∀ aiText parsed,
       env.hasApiKey = true →
       env.serviceResponse = .ok aiText →
       env.jsParse (extractJsonCandidate aiText) = some parsed →
       ∃ pi, (processWithAI env text dob).personalInfo = some pi ∧
         pi.dateOfBirth = some dob.str ∧
         pi.age = some (calculateAgeFromDob env.today dob.date)) ∧
    (∀ pi, (processWithAI env text dob).personalInfo = some pi →
       pi.dateOfBirth = some dob.str ∧
       pi.age = some (calculateAgeFromDob env.today dob.date)) := by
  constructor
  · intro aiText parsed hk hs hp
    unfold processWithAI
    simp only [hk, Bool.not_true, Bool.false_eq_true, if_false, hs, hp]
    exact ⟨_, rfl, rfl, rfl⟩
  · intro pi hpi
    have hmock : (generateMockAIResponse env text dob).personalInfo = some pi →
        pi.dateOfBirth = some dob.str ∧
        pi.age = some (calculateAgeFromDob env.today dob.date) := by
      intro h
      unfold generateMockAIResponse at h
      injection h with h
      rw [← h]
      exact ⟨rfl, rfl⟩
    unfold processWithAI at hpi
    cases hk2 : env.hasApiKey with
    | false =>
      simp only [hk2, Bool.not_false, if_true] at hpi
      exact hmock hpi
    | true =>
      simp only [hk2, Bool.not_true, Bool.false_eq_true, if_false] at hpi
      cases hsr : env.serviceResponse with
      | error e =>
        simp only [hsr] at hpi
        exact hmock hpi
      | ok aiText =>
        simp only [hsr] at hpi
        cases hjp : env.jsParse (extractJsonCandidate aiText) with
        | some parsed =>
          simp only [hjp, Option.some.injEq] at hpi
          rw [← hpi]
          exact ⟨rfl, rfl⟩
        | none =>
          simp only [hjp] at hpi
          exact Option.noConfusion hpi

/-- Witness for C1: with a service response that is an empty JSON object and
a parser accepting it, the returned record carries the supplied date of
birth 2000-06-15 and age 24 (today fixed at 2024-06-15). -/
theorem processWithAI_dob_pinned_witness :
    ∃ pi, (processWithAI aiEnvParsed "document text" dob1).personalInfo = some pi ∧
      pi.dateOfBirth = some "2000-06-15" ∧
      pi.age = some 24 :=
  (processWithAI_dob_pinned aiEnvParsed "document text" dob1).1 "\x7b\x7d" {} rfl rfl rfl

/-- C6. When the AI service's response cannot be parsed as JSON — neither a
fenced block nor a brace-delimited object yields something `JSON.parse`
accepts — the adapter returns, without raising, the degraded record whose
`error` field is the parse-failure message and whose `rawResponse` (and
`extractedData`) hold the raw response text. -/
theorem processWithAI_parse_failure_degraded (env : AIEnv) (text : String) (dob : Dob)
    (aiText : String)
    (hk : env.hasApiKey = true)
    (hs : env.serviceResponse = .ok aiText)
    (hp : env.jsParse (extractJsonCandidate aiText) = none) :
    processWithAI env text dob =
      { rawResponse := some aiText
        error := some "AI response could not be parsed as JSON"
        extractedData := some aiText } := by
  unfold processWithAI
  simp only [hk, Bool.not_true, Bool.false_eq_true, if_false, hs, hp]

/-- Witness for C6 at a concrete unparseable response. -/
theorem processWithAI_parse_failure_degraded_witness :
    processWithAI aiEnvUnparseable "document text" dob1 =
      { rawResponse := some "garbage response"
        error := some "AI response could not be parsed as JSON"
        extractedData := some "garbage response" } :=
  processWithAI_parse_failure_degraded aiEnvUnparseable "document text" dob1
    "garbage response" rfl rfl rfl

/-- Every run of the async task either takes the catch path (some error `e`
fed to the failed-status update) or persists, via `updateProcessingResults`,
a results object whose `rawText` is non-empty. -/
theorem processDocumentAsync_cases (env : ProcEnv) (row : JobRow) :
    (∃ e, processDocumentAsync env row = procFailPath env row e) ∨
    (∃ res : Results, res.rawText ≠ "" ∧
      processDocumentAsync env row = updateProcessingResults row res) := by
  unfold processDocumentAsync
  split
  · exact .inl ⟨_, rfl⟩
  · rename_i rawText heq
    by_cases hdb : env.dbUpdateOk = true
    · rw [if_pos hdb]
      refine .inr ⟨_, ?_, rfl⟩
      show (if (rawText == "") = true then "No text could be extracted from the document."
            else rawText) ≠ ""
      by_cases hr : (rawText == "") = true
      · rw [if_pos hr]
        decide
      · rw [if_neg hr]
        simpa using hr
    · rw [if_neg hdb]
      exact .inl ⟨_, rfl⟩

/-- C5 (amended). A job whose async task drives its `processing` row to
`completed` always has a non-empty persisted `rawText` (the chain of
fallback placeholders guarantees it); the `failed` terminal status gives no
such guarantee, because its update writes only `status` and `error_message`. -/
theorem completed_rawText_nonempty (env : ProcEnv) (row : JobRow)
    (h0 : row.status = "processing")
    (h1 : (processDocumentAsync env row).status = "completed") :
    ∃ s, (processDocumentAsync env row).rawText = some s ∧ s ≠ "" := by
  rcases processDocumentAsync_cases env row with ⟨e, he⟩ | ⟨res, hne, hr⟩
  · rw [he] at h1
    unfold procFailPath at h1
    split at h1 <;> simp_all
  · rw [hr]
    exact ⟨res.rawText, rfl, hne⟩

/-- Witness for C5 (amended): a successfully processed PDF job ends
`completed` with its extracted text persisted. -/
theorem completed_rawText_nonempty_witness :
    ∃ s, (processDocumentAsync envPdfOk initialJobRow).rawText = some s ∧ s ≠ "" :=
  completed_rawText_nonempty envPdfOk initialJobRow rfl (by decide)

/-- Counterexample for C5 as stated: an upload of unsupported MIME type
reaches the terminal status `failed` with `rawText` still NULL — the failed
path writes no placeholder into `rawText`. -/
theorem job_failed_rawText_null :
    (processDocumentAsync envUnsupported initialJobRow).status = "failed" ∧
    (processDocumentAsync envUnsupported initialJobRow).errorMessage =
      some "Unsupported file type: text/plain" ∧
    (processDocumentAsync envUnsupported initialJobRow).rawText = none := by
  refine ⟨rfl, rfl, rfl⟩

/-- C2. The extraction chain is total: `extractTextFromPDF` always returns a
string, and when every strategy yields nothing usable — the standard text
fails the quality gate, an OCR resolution is unusable (or OCR rejects), the
alternative OCR text is unusable and the fallback text is unusable — it
returns the literal explanatory placeholder instead of throwing. -/
theorem extractTextFromPDF_total_and_placeholder (o : PdfOracle) :
    (∃ s, extractTextFromPDF o = Except.ok s) ∧
    (isTextQualityGood (tryStandardExtraction o) = false →
     (∀ t, (extractTextWithOCR o.ocrEnv).result = .ok t → usableText t = false) →
     usableText o.altOcrText = false →
     usableText o.fallbackText = false →
     extractTextFromPDF o = .ok noTextMsg) := by
  constructor
  · exact ⟨(chainRun o).text, rfl⟩
  · intro hstd hocr halt hfb
    have hrun : (chainRun o).text = noTextMsg := by
      unfold chainRun
      simp only [hstd, Bool.false_eq_true, if_false]
      split
      · rename_i t heq
        simp only [hocr t heq, Bool.false_eq_true, if_false, hfb]
      · simp only [halt, Bool.false_eq_true, if_false, hfb]
    unfold extractTextFromPDF
    rw [hrun]

/-- Witness for C2: an oracle on which parsing fails, the OCR modules are
missing, and the remaining strategies return empty strings yields exactly the
placeholder. -/
theorem extractTextFromPDF_total_and_placeholder_witness :
    extractTextFromPDF pdfOracleAllFail = .ok noTextMsg :=
  (extractTextFromPDF_total_and_placeholder pdfOracleAllFail).2 (by decide)
    (fun _ ht => Except.noConfusion ht) (by decide) (by decide)

/-- C4. Standard extraction first: when the direct text layer passes the
quality gate, the chain returns its cleaned text, the trace is just the
standard strategy and zero pages reach the OCR engine; and each later
strategy is attempted only when its predecessors did not yield acceptable
quality — the OCR step only when the standard text failed the gate, the
alternative OCR only when the OCR step additionally rejected, the fallback
only when, additionally, no resolved OCR text was usable. -/
theorem chain_standard_first (o : PdfOracle) :
    (isTextQualityGood (tryStandardExtraction o) = true →
      chainRun o = ⟨cleanExtractedText (tryStandardExtraction o), [Strat.standard], 0⟩) ∧
    (Strat.ocr ∈ (chainRun o).trace → isTextQualityGood (tryStandardExtraction o) = false) ∧
    (Strat.altOcr ∈ (chainRun o).trace →
      isTextQualityGood (tryStandardExtraction o) = false ∧
      ∃ e, (extractTextWithOCR o.ocrEnv).result = .error e) ∧
    (Strat.fallback ∈ (chainRun o).trace →
      isTextQualityGood (tryStandardExtraction o) = false ∧
      ∀ t, (extractTextWithOCR o.ocrEnv).result = .ok t → usableText t = false) := by
  by_cases hstd : isTextQualityGood (tryStandardExtraction o) = true
  · have hrun : chainRun o =
        ⟨cleanExtractedText (tryStandardExtraction o), [Strat.standard], 0⟩ := by
      unfold chainRun
      simp only [hstd, if_true]
    refine ⟨fun _ => hrun, ?_, ?_, ?_⟩ <;> intro hmem <;> simp [hrun] at hmem
  · have hstd' : isTextQualityGood (tryStandardExtraction o) = false := by
      simpa using hstd
    refine ⟨fun h => absurd h hstd, fun _ => hstd', ?_, ?_⟩
    · intro hmem
      refine ⟨hstd', ?_⟩
      unfold chainRun at hmem
      simp only [hstd', Bool.false_eq_true, if_false] at hmem
      cases hres : (extractTextWithOCR o.ocrEnv).result with
      | ok t =>
        exfalso
        simp only [hres] at hmem
        by_cases hu : usableText t = true
        · simp only [hu, if_true] at hmem
          simp at hmem
        · have hu' : usableText t = false := by simpa using hu
          simp only [hu', Bool.false_eq_true, if_false] at hmem
          by_cases hf : usableText o.fallbackText = true
          · simp only [hf, if_true] at hmem
            simp at hmem
          · have hf' : usableText o.fallbackText = false := by simpa using hf
            simp only [hf', Bool.false_eq_true, if_false] at hmem
            simp at hmem
      | error e => exact ⟨e, hres ▸ rfl⟩
    · intro hmem
      refine ⟨hstd', ?_⟩
      intro t ht
      by_cases hu : usableText t = true
      · exfalso
        unfold chainRun at hmem
        simp only [hstd', Bool.false_eq_true, if_false, ht, hu, if_true] at hmem
        simp at hmem
      · simpa using hu

/-- Witness for C4: a PDF whose text layer is `Hello World` repeated past 50
characters is answered by the standard strategy alone — trace
`[Strat.standard]`, zero OCR engine calls. -/
theorem chain_standard_first_witness :
    chainRun pdfOracleHW =
      ⟨cleanExtractedText (tryStandardExtraction pdfOracleHW), [Strat.standard], 0⟩ :=
  (chain_standard_first pdfOracleHW).1 (by decide)

/-- An all-whitespace character list produces no tokens. -/
theorem wordsAux_nil_of_all_space (cs : List Char)
    (h : ∀ c ∈ cs, jsIsSpace c = true) : wordsAux cs [] = [] := by
  induction cs with
  | nil => rfl
  | cons c cs ih =>
    have hc : jsIsSpace c = true := h c (by simp)
    simp only [wordsAux, hc, if_true, List.isEmpty_nil]
    exact ih (fun x hx => h x (by simp [hx]))

/-- A character list whose trim is empty is all whitespace. -/
theorem all_space_of_trim_nil (cs : List Char)
    (h : jsTrimList cs = []) : ∀ c ∈ cs, jsIsSpace c = true := by
  unfold jsTrimList at h
  rw [List.reverse_eq_nil_iff, List.dropWhile_eq_nil_iff] at h
  intro c hc
  rw [← List.takeWhile_append_dropWhile jsIsSpace cs] at hc
  rcases List.mem_append.mp hc with h1 | h2
  · exact List.mem_takeWhile_imp h1
  · exact h c (List.mem_reverse.mpr h2)

/-- When the filtered token list is non-empty, the trimmed text is non-empty
— so the trim guard of `isTextQualityGood` is implied by its average-length
condition. -/
theorem trim_ne_nil_of_wordsFiltered (cs : List Char)
    (h : (wordsFiltered cs).length ≠ 0) : jsTrimList cs ≠ [] := by
  intro htrim
  apply h
  unfold wordsFiltered
  rw [wordsAux_nil_of_all_space cs (all_space_of_trim_nil cs htrim)]
  rfl

/-- Counterexample for C3 as stated: a string that the code scores
ACCEPTABLE although its whitespace-trimmed length is only 34 — the length
check of `isTextQualityGood` is applied to the raw string
(`text.length > 50`), not to the trimmed one as the claim says. -/
theorem quality_trim_length_cex :
    isTextQualityGood trimCexText = true ∧
    (jsTrim trimCexText).length = 34 ∧
    ¬ 50 < (jsTrim trimCexText).length := by
  refine ⟨by decide, by decide, by decide⟩

set_option maxRecDepth 100000 in
/-- C3 (amended). The quality gate accepts exactly when: the readable-set
ratio exceeds 0.6, the filtered token list is non-empty with average token
length above 2.5, the UNtrimmed length exceeds 50, and no binary-range or
non-printable character occurs (the initial empty/all-whitespace guard is
subsumed by these conditions); in particular the 26-character
alternating-case string is rejected and the 200-character lorem-ipsum-like
paragraph accepted. -/
theorem quality_decision_rule :
    (∀ s : String,
       isTextQualityGood s = true ↔
         (3 * s.toList.length < 5 * readableCount s.toList ∧
          (wordsFiltered s.toList).length ≠ 0 ∧
          5 * (wordsFiltered s.toList).length < 2 * wordLenSum (wordsFiltered s.toList) ∧
          50 < s.toList.length ∧
          s.toList.any hasBinaryChar = false ∧
          s.toList.any hasEncodedChar = false)) ∧
    isTextQualityGood alt26 = false ∧
    isTextQualityGood lorem200 = true := by
  refine ⟨?_, by decide, by decide⟩
  intro s
  unfold isTextQualityGood
  constructor
  · intro h
    by_cases hg : (s.toList.isEmpty || (jsTrimList s.toList).isEmpty) = true
    · rw [if_pos hg] at h
      exact absurd h Bool.false_ne_true
    · rw [if_neg hg] at h
      simp only [Bool.and_eq_true] at h
      obtain ⟨⟨⟨⟨h1, h2⟩, h3⟩, h4⟩, h5⟩ := h
      by_cases hz : (wordsFiltered s.toList).length = 0
      · rw [if_pos (by simpa using hz)] at h2
        exact absurd h2 Bool.false_ne_true
      · rw [if_neg (by simpa using hz)] at h2
        exact ⟨by simpa using h1, hz, by simpa using h2, by simpa using h3,
               by simpa using h4, by simpa using h5⟩
  · intro ⟨h1, h2, h3, h4, h5, h6⟩
    have hne : s.toList ≠ [] := by
      intro hnil
      rw [hnil] at h4
      simp at h4
    have htrim : jsTrimList s.toList ≠ [] := trim_ne_nil_of_wordsFiltered _ h2
    rw [if_neg (by
      intro hor
      simp only [Bool.or_eq_true, List.isEmpty_iff] at hor
      exact hor.elim hne htrim)]
    simp only [Bool.and_eq_true]
    refine ⟨⟨⟨⟨by simpa using h1, ?_⟩, by simpa using h4⟩, by simpa using h5⟩,
            by simpa using h6⟩
    rw [if_neg (by simpa using h2)]
    simpa using h3
